import Mathlib

/-!
# SESC branch predictor: the dispatcher of `libcore/BPred.h`

A shallow embedding of the inline code of `BPred.h`:

* `BPred::calcInstID` and `BPred::doPredict` (the non-virtual part of the
  predictor base class);
* `BPredictor::recordPredictionResult`, `BPredictor::predict` and the
  histogram loop of `BPredictor::printResults`.

The virtual `predict` of each sub-predictor (`BPRas`, `BP2bit`, ...) is defined
outside the header, so a sub-predictor is a record holding the base-class
members, an arbitrary private state and an arbitrary `predict` function over
that state.  Every statement below is therefore proved for all sub-predictors.

Stateful member functions are embedded as functions returning the result
together with the new object.
-/

namespace Sesc

/-! ## Data model -/

/-- Verdict of a prediction: `enum PredType`. -/
inductive PredType where
  | CorrectPrediction
  | NoPrediction
  | NoBTBPrediction
  | MissPrediction
  deriving DecidableEq, Repr

/-- Instruction identifier (`InstID`), an unsigned machine word. -/
abbrev InstID := Nat

/-- History word: `typedef unsigned long long HistoryType`, a value below `2^64`. -/
abbrev HistoryType := Nat

/-- Modelled from the spec: the class `Instruction` (libll/Instruction.h is not
part of the header).  It provides the pseudo-PC `currentID`, the fall-through
`calcNextInstID`, `isBranch` and the branch sub-kind. -/
structure Instruction where
  currentID : InstID
  calcNextInstID : InstID
  isBranch : Bool
  subCode : Nat
  deriving DecidableEq, Repr

/-- Modelled from the spec: the statistics counter `GStatsCntr` (GStats.h is not
part of the header).  A counter holds a number `data` that is only ever
incremented; its machine width is not visible in the header and it is kept
unbounded. -/
structure GStatsCntr where
  data : Nat
  deriving DecidableEq, Repr

/-- Modelled from the spec: `GStatsCntr::cinc(cond)`, the conditional increment:
the counter grows by one when `cond` holds and is unchanged otherwise. -/
def GStatsCntr.cinc (c : GStatsCntr) (cond : Bool) : GStatsCntr :=
  { data := if cond then c.data + 1 else c.data }

/-- The class `BPred`.  `self` is the state added by the derived class and
`predict` its implementation of the pure virtual `predict`.  Following the note
next to `nHit`/`nMiss` ("predictors should not update these counters directly in
their predict() function"), `predict` acts on `self` only. -/
structure BPred (σ : Type) where
  id : Int
  nHit : GStatsCntr
  nMiss : GStatsCntr
  bpred4Cycle : Int
  bpred4CycleAddrShift : Nat
  self : σ
  predict : σ → Instruction → InstID → Bool → PredType × σ

/-- The method `BPred::calcInstID`.  The identifier is converted to the unsigned
64-bit `HistoryType`, shifted right by `bpred4CycleAddrShift`, and folded with
itself shifted by 17.  Right shifts and xor of words below `2^64` stay below
`2^64`, so only the conversion needs a reduction. -/
def BPred.calcInstID {σ : Type} (b : BPred σ) (inst : Instruction) : HistoryType :=
  let cid := inst.currentID % 2 ^ 64
  let cid := cid >>> b.bpred4CycleAddrShift
  let cid := (cid >>> 17) ^^^ cid
  cid

/-- The method `BPred::doPredict`: run the virtual `predict`, and on an update
call with a real prediction count it in `nHit` or `nMiss`. -/
def BPred.doPredict {σ : Type} (b : BPred σ) (inst : Instruction) (oracleID : InstID)
    (doUpdate : Bool) : PredType × BPred σ :=
  let r := b.predict b.self inst oracleID doUpdate
  let pred := r.1
  let b := { b with self := r.2 }
  if !doUpdate || pred == PredType.NoPrediction then
    (pred, b)
  else
    let b := { b with nHit := b.nHit.cinc (pred == PredType.CorrectPrediction) }
    let b := { b with nMiss := b.nMiss.cinc (pred != PredType.CorrectPrediction) }
    (pred, b)

/-- The diagnostic record `struct BranchRecord`; both fields are C `int`s. -/
structure BranchRecord where
  correctPredictions : Int
  mispredictions : Int
  deriving DecidableEq, Repr

/-- Range of a 32-bit signed `int`. -/
def InInt32 (x : Int) : Prop := -2147483648 ≤ x ∧ x < 2147483648

instance (x : Int) : Decidable (InInt32 x) := by
  unfold InInt32; infer_instance

/-- Two's-complement reduction of an integer to the range of `int`: the value
stored by an `int` addition. -/
def wrapInt32 (x : Int) : Int := (x + 2147483648) % 4294967296 - 2147483648

/-- The container `std::unordered_map<HistoryType, BranchRecord>`, as the list of
its entries in iteration order. -/
abbrev RecordMap := List (HistoryType × BranchRecord)

/-- Lookup `find(k)`: the record stored under `k`, if any. -/
def RecordMap.find : RecordMap → HistoryType → Option BranchRecord
  | [], _ => none
  | (k', r) :: t, k => if k' = k then some r else RecordMap.find t k

/-- Access `m[k]` followed by a write through the returned reference: the entry
under `k` becomes `f` of its record; an absent key is first inserted with a
value-initialised record `{0, 0}`. -/
def RecordMap.update : RecordMap → HistoryType → (BranchRecord → BranchRecord) → RecordMap
  | [], k, f => [(k, f { correctPredictions := 0, mispredictions := 0 })]
  | (k', r) :: t, k, f =>
    if k' = k then (k', f r) :: t else (k', r) :: RecordMap.update t k f

/-- The top-level predictor `BPredictor`: a return-address stack `ras` with
private state `ρ`, the direction predictor `pred` with private state `σ` (owned
by this object, the case `SMTcopy = false`), three counters and the
per-instruction diagnostic map. -/
structure BPredictor (ρ σ : Type) where
  id : Int
  SMTcopy : Bool
  ras : BPred ρ
  pred : BPred σ
  nBranches : GStatsCntr
  nTaken : GStatsCntr
  nMiss : GStatsCntr
  predictionRecords : RecordMap

/-- The method `BPredictor::recordPredictionResult`. -/
def BPredictor.recordPredictionResult {ρ σ : Type} (bp : BPredictor ρ σ)
    (instruction : Instruction) (prediction : PredType) : BPredictor ρ σ :=
  let instructionId := bp.pred.calcInstID instruction
  let recs := bp.predictionRecords
  let recs :=
    if RecordMap.find recs instructionId = none then
      RecordMap.update recs instructionId
        (fun _ => { correctPredictions := 0, mispredictions := 0 })
    else recs
  let recs :=
    if prediction = PredType.CorrectPrediction then
      RecordMap.update recs instructionId
        (fun r => { r with correctPredictions := wrapInt32 (r.correctPredictions + 1) })
    else
      RecordMap.update recs instructionId
        (fun r => { r with mispredictions := wrapInt32 (r.mispredictions + 1) })
  { bp with predictionRecords := recs }

/-- The method `BPredictor::predict`.  The leading `I(inst->isBranch())` is a
debug assertion that states the precondition and has no effect. -/
def BPredictor.predict {ρ σ : Type} (bp : BPredictor ρ σ) (inst : Instruction)
    (oracleID : InstID) (doUpdate : Bool) : PredType × BPredictor ρ σ :=
  let bp := { bp with nBranches := bp.nBranches.cinc doUpdate }
  let bp := { bp with nTaken := bp.nTaken.cinc (inst.calcNextInstID != oracleID) }
  let r := bp.ras.doPredict inst oracleID doUpdate
  let p := r.1
  let bp := { bp with ras := r.2 }
  if p != PredType.NoPrediction then
    let bp := { bp with nMiss := bp.nMiss.cinc (p != PredType.CorrectPrediction && doUpdate) }
    (p, bp)
  else
    let r := bp.pred.doPredict inst oracleID doUpdate
    let p := r.1
    let bp := { bp with pred := r.2 }
    let bp := if inst.isBranch then bp.recordPredictionResult inst p else bp
    let bp := { bp with nMiss := bp.nMiss.cinc (p != PredType.CorrectPrediction && doUpdate) }
    (p, bp)

/-- The twelve `int` accumulators of `BPredictor::printResults`: per bucket the
number of instructions and the totals of correct and wrong predictions. -/
structure Histogram where
  numInstructionsExecutedLessThan10Times : Int
  numInstructionsExecuted10To99Times : Int
  numInstructionsExecuted100To999Times : Int
  numInstructionsExecutedMoreThan999Times : Int
  numCorrectPredictionsLessThan10Times : Int
  numMispredictionsLessThan10Times : Int
  numCorrectPredictions10To99Times : Int
  numMispredictions10To99Times : Int
  numCorrectPredictions100To999Times : Int
  numMispredictions100To999Times : Int
  numCorrectPredictionsMoreThan999Times : Int
  numMispredictionsMoreThan999Times : Int
  deriving DecidableEq, Repr

/-- The accumulators as initialised at the top of `printResults`. -/
def Histogram.zero : Histogram :=
  { numInstructionsExecutedLessThan10Times := 0
    numInstructionsExecuted10To99Times := 0
    numInstructionsExecuted100To999Times := 0
    numInstructionsExecutedMoreThan999Times := 0
    numCorrectPredictionsLessThan10Times := 0
    numMispredictionsLessThan10Times := 0
    numCorrectPredictions10To99Times := 0
    numMispredictions10To99Times := 0
    numCorrectPredictions100To999Times := 0
    numMispredictions100To999Times := 0
    numCorrectPredictionsMoreThan999Times := 0
    numMispredictionsMoreThan999Times := 0 }

/-- One iteration of the loop `for (auto kv : predictionRecords)` of
`printResults`; every `int` addition is reduced to the range of `int`. -/
def printResultsBody (h : Histogram) (kv : HistoryType × BranchRecord) : Histogram :=
  let record := kv.2
  let totalExecutions := wrapInt32 (record.correctPredictions + record.mispredictions)
  if totalExecutions < 10 then
    { h with
      numInstructionsExecutedLessThan10Times :=
        wrapInt32 (h.numInstructionsExecutedLessThan10Times + 1)
      numCorrectPredictionsLessThan10Times :=
        wrapInt32 (h.numCorrectPredictionsLessThan10Times + record.correctPredictions)
      numMispredictionsLessThan10Times :=
        wrapInt32 (h.numMispredictionsLessThan10Times + record.mispredictions) }
  else if totalExecutions ≥ 10 ∧ totalExecutions < 100 then
    { h with
      numInstructionsExecuted10To99Times :=
        wrapInt32 (h.numInstructionsExecuted10To99Times + 1)
      numCorrectPredictions10To99Times :=
        wrapInt32 (h.numCorrectPredictions10To99Times + record.correctPredictions)
      numMispredictions10To99Times :=
        wrapInt32 (h.numMispredictions10To99Times + record.mispredictions) }
  else if totalExecutions ≥ 100 ∧ totalExecutions < 1000 then
    { h with
      numInstructionsExecuted100To999Times :=
        wrapInt32 (h.numInstructionsExecuted100To999Times + 1)
      numCorrectPredictions100To999Times :=
        wrapInt32 (h.numCorrectPredictions100To999Times + record.correctPredictions)
      numMispredictions100To999Times :=
        wrapInt32 (h.numMispredictions100To999Times + record.mispredictions) }
  else if totalExecutions ≥ 1000 then
    { h with
      numInstructionsExecutedMoreThan999Times :=
        wrapInt32 (h.numInstructionsExecutedMoreThan999Times + 1)
      numCorrectPredictionsMoreThan999Times :=
        wrapInt32 (h.numCorrectPredictionsMoreThan999Times + record.correctPredictions)
      numMispredictionsMoreThan999Times :=
        wrapInt32 (h.numMispredictionsMoreThan999Times + record.mispredictions) }
  else h

/-- The histogram computed by `BPredictor::printResults`, that is the values
of its accumulators after the loop.  The accuracy ratios are floating-point
quotients of these values and are not part of the embedding. -/
def BPredictor.printResults {ρ σ : Type} (bp : BPredictor ρ σ) : Histogram :=
  bp.predictionRecords.foldl printResultsBody Histogram.zero

/-! ## The histogram as the specification words it -/

/-- The four ranges of the histogram. -/
inductive Bucket where
  | lessThan10
  | from10To99
  | from100To999
  | moreThan999
  deriving DecidableEq, Repr

/-- Membership of a total in a range: `< 10`, `10..99`, `100..999`, `≥ 1000`. -/
def Bucket.holds : Bucket → Int → Bool
  | Bucket.lessThan10, t => decide (t < 10)
  | Bucket.from10To99, t => decide (10 ≤ t ∧ t ≤ 99)
  | Bucket.from100To999, t => decide (100 ≤ t ∧ t ≤ 999)
  | Bucket.moreThan999, t => decide (1000 ≤ t)

/-- Total of a record: `correctPredictions + mispredictions`. -/
def BranchRecord.total (r : BranchRecord) : Int := r.correctPredictions + r.mispredictions

/-- The records of a map whose total lies in the range `b`. -/
def bucketRecords (b : Bucket) (m : RecordMap) : List BranchRecord :=
  (m.map Prod.snd).filter (fun r => b.holds r.total)

/-- Number of records whose total lies in the range `b`. -/
def bucketCount (b : Bucket) (m : RecordMap) : Int := ((bucketRecords b m).length : Int)

/-- Sum of `correctPredictions` over the records whose total lies in `b`. -/
def bucketCorrect (b : Bucket) (m : RecordMap) : Int :=
  ((bucketRecords b m).map BranchRecord.correctPredictions).sum

/-- Sum of `mispredictions` over the records whose total lies in `b`. -/
def bucketMispredicted (b : Bucket) (m : RecordMap) : Int :=
  ((bucketRecords b m).map BranchRecord.mispredictions).sum

/-- The histogram of a record map as the specification describes it. -/
def specHistogram (m : RecordMap) : Histogram :=
  { numInstructionsExecutedLessThan10Times := bucketCount Bucket.lessThan10 m
    numInstructionsExecuted10To99Times := bucketCount Bucket.from10To99 m
    numInstructionsExecuted100To999Times := bucketCount Bucket.from100To999 m
    numInstructionsExecutedMoreThan999Times := bucketCount Bucket.moreThan999 m
    numCorrectPredictionsLessThan10Times := bucketCorrect Bucket.lessThan10 m
    numMispredictionsLessThan10Times := bucketMispredicted Bucket.lessThan10 m
    numCorrectPredictions10To99Times := bucketCorrect Bucket.from10To99 m
    numMispredictions10To99Times := bucketMispredicted Bucket.from10To99 m
    numCorrectPredictions100To999Times := bucketCorrect Bucket.from100To999 m
    numMispredictions100To999Times := bucketMispredicted Bucket.from100To999 m
    numCorrectPredictionsMoreThan999Times := bucketCorrect Bucket.moreThan999 m
    numMispredictionsMoreThan999Times := bucketMispredicted Bucket.moreThan999 m }

/-- All twelve values of a histogram lie in the range of `int`. -/
def Histogram.InRange (h : Histogram) : Prop :=
  InInt32 h.numInstructionsExecutedLessThan10Times ∧
  InInt32 h.numInstructionsExecuted10To99Times ∧
  InInt32 h.numInstructionsExecuted100To999Times ∧
  InInt32 h.numInstructionsExecutedMoreThan999Times ∧
  InInt32 h.numCorrectPredictionsLessThan10Times ∧
  InInt32 h.numMispredictionsLessThan10Times ∧
  InInt32 h.numCorrectPredictions10To99Times ∧
  InInt32 h.numMispredictions10To99Times ∧
  InInt32 h.numCorrectPredictions100To999Times ∧
  InInt32 h.numMispredictions100To999Times ∧
  InInt32 h.numCorrectPredictionsMoreThan999Times ∧
  InInt32 h.numMispredictionsMoreThan999Times

instance (h : Histogram) : Decidable h.InRange := by
  unfold Histogram.InRange; infer_instance

/-- Every record of the map has a total in the range of `int`. -/
def RecordMap.TotalsInRange (m : RecordMap) : Prop := ∀ kv ∈ m, InInt32 kv.2.total

instance (m : RecordMap) : Decidable (RecordMap.TotalsInRange m) := by
  unfold RecordMap.TotalsInRange; infer_instance

/-- Field-wise combination of two histograms. -/
def Histogram.zipWith (f : Int → Int → Int) (h g : Histogram) : Histogram :=
  { numInstructionsExecutedLessThan10Times :=
      f h.numInstructionsExecutedLessThan10Times g.numInstructionsExecutedLessThan10Times
    numInstructionsExecuted10To99Times :=
      f h.numInstructionsExecuted10To99Times g.numInstructionsExecuted10To99Times
    numInstructionsExecuted100To999Times :=
      f h.numInstructionsExecuted100To999Times g.numInstructionsExecuted100To999Times
    numInstructionsExecutedMoreThan999Times :=
      f h.numInstructionsExecutedMoreThan999Times g.numInstructionsExecutedMoreThan999Times
    numCorrectPredictionsLessThan10Times :=
      f h.numCorrectPredictionsLessThan10Times g.numCorrectPredictionsLessThan10Times
    numMispredictionsLessThan10Times :=
      f h.numMispredictionsLessThan10Times g.numMispredictionsLessThan10Times
    numCorrectPredictions10To99Times :=
      f h.numCorrectPredictions10To99Times g.numCorrectPredictions10To99Times
    numMispredictions10To99Times :=
      f h.numMispredictions10To99Times g.numMispredictions10To99Times
    numCorrectPredictions100To999Times :=
      f h.numCorrectPredictions100To999Times g.numCorrectPredictions100To999Times
    numMispredictions100To999Times :=
      f h.numMispredictions100To999Times g.numMispredictions100To999Times
    numCorrectPredictionsMoreThan999Times :=
      f h.numCorrectPredictionsMoreThan999Times g.numCorrectPredictionsMoreThan999Times
    numMispredictionsMoreThan999Times :=
      f h.numMispredictionsMoreThan999Times g.numMispredictionsMoreThan999Times }

/-- Addition of `int`s: the sum reduced to the range of `int`. -/
def addInt32 (a b : Int) : Int := wrapInt32 (a + b)

/-! ## Runs: finite sequences of calls -/

/-- One invocation of `BPredictor::predict` by the fetch stage. -/
structure Call where
  inst : Instruction
  oracleID : InstID
  doUpdate : Bool
  deriving DecidableEq, Repr

/-- Log entry of one call of a run: the call, the verdict the RAS's `doPredict`
gave on it, and the verdict `predict` returned. -/
structure Outcome where
  call : Call
  rasVerdict : PredType
  verdict : PredType
  deriving DecidableEq, Repr

/-- A run: the calls are applied in order, each to the state left by the one
before; the result is the log of the calls and the final state. -/
def BPredictor.run {ρ σ : Type} : BPredictor ρ σ → List Call → List Outcome × BPredictor ρ σ
  | bp, [] => ([], bp)
  | bp, c :: cs =>
    let o : Outcome :=
      { call := c
        rasVerdict := (bp.ras.doPredict c.inst c.oracleID c.doUpdate).1
        verdict := (bp.predict c.inst c.oracleID c.doUpdate).1 }
    let r := BPredictor.run (bp.predict c.inst c.oracleID c.doUpdate).2 cs
    (o :: r.1, r.2)

/-- Number of calls of a log with `doUpdate = true` whose returned verdict was
`NoPrediction`. -/
def nNoPrediction (log : List Outcome) : Nat :=
  (log.filter (fun o => o.call.doUpdate && o.verdict == PredType.NoPrediction)).length

/-- Number of calls of a log on which the RAS declined. -/
def nRasDeclined (log : List Outcome) : Nat :=
  (log.filter (fun o => o.rasVerdict == PredType.NoPrediction)).length

/-- The tally the specification describes for one call: one more correct
prediction for a `CorrectPrediction`, one more misprediction for any other
verdict. -/
def BranchRecord.tallied (r : BranchRecord) (verdict : PredType) : BranchRecord :=
  if verdict = PredType.CorrectPrediction then
    { r with correctPredictions := r.correctPredictions + 1 }
  else
    { r with mispredictions := r.mispredictions + 1 }

/-- Sum of `correctPredictions + mispredictions` over all records of a map. -/
def RecordMap.tally (m : RecordMap) : Int := (m.map (fun kv => kv.2.total)).sum

/-- Every counter of every record lies between 0 and `B`. -/
def RecordMap.Bounded (m : RecordMap) (B : Int) : Prop :=
  ∀ kv ∈ m, 0 ≤ kv.2.correctPredictions ∧ kv.2.correctPredictions ≤ B ∧
    0 ≤ kv.2.mispredictions ∧ kv.2.mispredictions ≤ B

/-- A map with one record at each boundary of the histogram ranges. -/
def boundaryRecords : RecordMap :=
  [(1, { correctPredictions := 5, mispredictions := 4 }),
   (2, { correctPredictions := 7, mispredictions := 3 }),
   (3, { correctPredictions := 90, mispredictions := 9 }),
   (4, { correctPredictions := 60, mispredictions := 40 }),
   (5, { correctPredictions := 900, mispredictions := 99 }),
   (6, { correctPredictions := 1000, mispredictions := 0 })]

/-! ## Concrete predictors used to evaluate the definitions -/

/-- A sub-predictor without private state whose `predict` answers every call
with the verdict `v`. -/
def constPred (v : PredType) (bw shift : Nat) : BPred Unit :=
  { id := 0, nHit := { data := 0 }, nMiss := { data := 0 }, bpred4Cycle := bw,
    bpred4CycleAddrShift := shift, self := (), predict := fun s _ _ _ => (v, s) }

/-- A sub-predictor that replays a script of verdicts, one per call, and answers
`NoPrediction` once the script is used up. -/
def scriptedPred (script : List PredType) (bw shift : Nat) : BPred (List PredType) :=
  { id := 0, nHit := { data := 0 }, nMiss := { data := 0 }, bpred4Cycle := bw,
    bpred4CycleAddrShift := shift, self := script,
    predict := fun s _ _ _ => (s.headD PredType.NoPrediction, s.tail) }

/-- A freshly constructed top-level predictor: counters at zero, empty map. -/
def BPredictor.fresh {ρ σ : Type} (ras : BPred ρ) (pred : BPred σ) : BPredictor ρ σ :=
  { id := 0, SMTcopy := false, ras := ras, pred := pred, nBranches := { data := 0 },
    nTaken := { data := 0 }, nMiss := { data := 0 }, predictionRecords := [] }

/-- A branch instruction at pseudo-PC `pc` with fall-through `next`. -/
def branchAt (pc next : Nat) : Instruction :=
  { currentID := pc, calcNextInstID := next, isBranch := true, subCode := 0 }

/-- A fresh predictor whose RAS declines, answers `CorrectPrediction`, then
declines for good, in front of a direction predictor that answers
`CorrectPrediction` once and `NoPrediction` afterwards. -/
def scriptedPredictor : BPredictor (List PredType) (List PredType) :=
  BPredictor.fresh (scriptedPred [PredType.NoPrediction, PredType.CorrectPrediction] 1 0)
    (scriptedPred [PredType.CorrectPrediction, PredType.NoPrediction] 1 0)

/-- A predictor whose map holds, under key 256, a record with 5 correct
predictions and `INT_MAX = 2147483647` mispredictions; its RAS declines and its
direction predictor answers `MissPrediction`. -/
def saturatedPredictor : BPredictor Unit Unit :=
  { BPredictor.fresh (constPred PredType.NoPrediction 1 0)
      (constPred PredType.MissPrediction 1 0) with
    predictionRecords := [(256, { correctPredictions := 5, mispredictions := 2147483647 })] }

/-- Four calls: a taken branch at 256, a branch at 512, the branch at 256 again
(not taken), all with update, and a branch at 768 without update. -/
def scriptedCalls : List Call :=
  [{ inst := branchAt 256 260, oracleID := 128, doUpdate := true },
   { inst := branchAt 512 516, oracleID := 516, doUpdate := true },
   { inst := branchAt 256 260, oracleID := 260, doUpdate := true },
   { inst := branchAt 768 772, oracleID := 772, doUpdate := false }]

/-! ## The base class: `doPredict` -/

theorem doPredict_fst {σ : Type} (b : BPred σ) (inst : Instruction) (oracleID : InstID)
    (doUpdate : Bool) :
    (b.doPredict inst oracleID doUpdate).1 = (b.predict b.self inst oracleID doUpdate).1 := by
  unfold BPred.doPredict
  cases doUpdate <;> cases hv : (b.predict b.self inst oracleID _).1 <;> simp [hv]

theorem doPredict_noUpdate {σ : Type} (b : BPred σ) (inst : Instruction) (oracleID : InstID) :
    (b.doPredict inst oracleID false).2.nHit = b.nHit ∧
    (b.doPredict inst oracleID false).2.nMiss = b.nMiss := by
  simp [BPred.doPredict]

theorem doPredict_counter_sum {σ : Type} (b : BPred σ) (inst : Instruction)
    (oracleID : InstID) (doUpdate : Bool) :
    (b.doPredict inst oracleID doUpdate).2.nHit.data +
        (b.doPredict inst oracleID doUpdate).2.nMiss.data
      = b.nHit.data + b.nMiss.data +
        (if doUpdate = true ∧ (b.doPredict inst oracleID doUpdate).1 ≠ PredType.NoPrediction
          then 1 else 0) := by
  unfold BPred.doPredict
  cases doUpdate
  · simp
  · cases hv : (b.predict b.self inst oracleID true).1 <;> simp [GStatsCntr.cinc, hv] <;> omega

theorem doPredict_shift {σ : Type} (b : BPred σ) (inst : Instruction) (oracleID : InstID)
    (doUpdate : Bool) :
    (b.doPredict inst oracleID doUpdate).2.bpred4CycleAddrShift = b.bpred4CycleAddrShift := by
  unfold BPred.doPredict
  simp only []
  split_ifs <;> rfl

/-- C2: `BPred::doPredict` returns the verdict of the virtual `predict`; on an
update call with a real prediction exactly one of `nHit`/`nMiss` grows by one
(`nHit` iff the verdict is `CorrectPrediction`), and without update or on
`NoPrediction` neither counter changes. -/
theorem doPredict_verdict_and_counters {σ : Type} (b : BPred σ) (inst : Instruction)
    (oracleID : InstID) (doUpdate : Bool) :
    (b.doPredict inst oracleID doUpdate).1 = (b.predict b.self inst oracleID doUpdate).1 ∧
    (doUpdate = true → (b.predict b.self inst oracleID doUpdate).1 ≠ PredType.NoPrediction →
      ((b.predict b.self inst oracleID doUpdate).1 = PredType.CorrectPrediction →
        (b.doPredict inst oracleID doUpdate).2.nHit.data = b.nHit.data + 1 ∧
        (b.doPredict inst oracleID doUpdate).2.nMiss = b.nMiss) ∧
      ((b.predict b.self inst oracleID doUpdate).1 ≠ PredType.CorrectPrediction →
        (b.doPredict inst oracleID doUpdate).2.nMiss.data = b.nMiss.data + 1 ∧
        (b.doPredict inst oracleID doUpdate).2.nHit = b.nHit)) ∧
    ((doUpdate = false ∨
        (b.predict b.self inst oracleID doUpdate).1 = PredType.NoPrediction) →
      (b.doPredict inst oracleID doUpdate).2.nHit = b.nHit ∧
      (b.doPredict inst oracleID doUpdate).2.nMiss = b.nMiss) := by
  unfold BPred.doPredict
  cases doUpdate <;> cases hv : (b.predict b.self inst oracleID _).1 <;>
    simp [GStatsCntr.cinc, hv]

/-- C2 evaluated: an update call answered `MissPrediction` raises `nMiss` from
0 to 1 and leaves `nHit` alone. -/
theorem doPredict_verdict_and_counters_witness :
    ((constPred PredType.MissPrediction 1 0).doPredict (branchAt 256 260) 128 true).2.nMiss.data
      = (constPred PredType.MissPrediction 1 0).nMiss.data + 1 ∧
    ((constPred PredType.MissPrediction 1 0).doPredict (branchAt 256 260) 128 true).2.nHit
      = (constPred PredType.MissPrediction 1 0).nHit :=
  ((doPredict_verdict_and_counters (constPred PredType.MissPrediction 1 0)
    (branchAt 256 260) 128 true).2.1 rfl (by decide)).2 (by decide)

/-! ## Machine integers and the record map -/

theorem wrapInt32_of_inRange (x : Int) (h : InInt32 x) : wrapInt32 x = x := by
  unfold InInt32 at h
  unfold wrapInt32
  omega

theorem wrapInt32_succ_ne (x : Int) : wrapInt32 (x + 1) ≠ x := by
  unfold wrapInt32
  omega

theorem RecordMap.find_update_self (m : RecordMap) (k : HistoryType)
    (f : BranchRecord → BranchRecord) :
    RecordMap.find (RecordMap.update m k f) k =
      some (f ((RecordMap.find m k).getD { correctPredictions := 0, mispredictions := 0 })) := by
  induction m with
  | nil => simp [RecordMap.update, RecordMap.find]
  | cons kv t ih =>
    obtain ⟨k', r⟩ := kv
    by_cases hk : k' = k
    · simp [RecordMap.update, RecordMap.find, hk]
    · simp [RecordMap.update, RecordMap.find, hk, ih]

theorem RecordMap.find_update_other (m : RecordMap) (k k' : HistoryType)
    (f : BranchRecord → BranchRecord) (h : k' ≠ k) :
    RecordMap.find (RecordMap.update m k f) k' = RecordMap.find m k' := by
  induction m with
  | nil => simp [RecordMap.update, RecordMap.find, Ne.symm h]
  | cons kv t ih =>
    obtain ⟨k₀, r⟩ := kv
    by_cases hk : k₀ = k
    · subst hk
      simp [RecordMap.update, RecordMap.find, Ne.symm h]
    · by_cases hk' : k₀ = k'
      · subst hk'
        simp [RecordMap.update, RecordMap.find, hk]
      · simp [RecordMap.update, RecordMap.find, hk, hk', ih]

theorem calcInstID_congr {σ τ : Type} (b : BPred σ) (c : BPred τ)
    (h : c.bpred4CycleAddrShift = b.bpred4CycleAddrShift) (inst : Instruction) :
    c.calcInstID inst = b.calcInstID inst := by
  simp [BPred.calcInstID, h]

/-- The record found under the key of `instruction` after
`recordPredictionResult`, in terms of the record found before (`{0, 0}` when
there was none). -/
theorem recordPredictionResult_find_self {ρ σ : Type} (bp : BPredictor ρ σ)
    (instruction : Instruction) (prediction : PredType) :
    RecordMap.find (bp.recordPredictionResult instruction prediction).predictionRecords
        (bp.pred.calcInstID instruction) =
      some (
        if prediction = PredType.CorrectPrediction then
          { correctPredictions := wrapInt32
              (((RecordMap.find bp.predictionRecords (bp.pred.calcInstID instruction)).getD
                { correctPredictions := 0, mispredictions := 0 }).correctPredictions + 1),
            mispredictions :=
              ((RecordMap.find bp.predictionRecords (bp.pred.calcInstID instruction)).getD
                { correctPredictions := 0, mispredictions := 0 }).mispredictions }
        else
          { correctPredictions :=
              ((RecordMap.find bp.predictionRecords (bp.pred.calcInstID instruction)).getD
                { correctPredictions := 0, mispredictions := 0 }).correctPredictions,
            mispredictions := wrapInt32
              (((RecordMap.find bp.predictionRecords (bp.pred.calcInstID instruction)).getD
                { correctPredictions := 0, mispredictions := 0 }).mispredictions + 1) }) := by
  unfold BPredictor.recordPredictionResult
  simp only []
  cases hf : RecordMap.find bp.predictionRecords (bp.pred.calcInstID instruction) with
  | none =>
    by_cases hp : prediction = PredType.CorrectPrediction <;>
      simp [hp, RecordMap.find_update_self]
  | some r =>
    by_cases hp : prediction = PredType.CorrectPrediction <;>
      simp [hp, hf, RecordMap.find_update_self]

theorem recordPredictionResult_find_other {ρ σ : Type} (bp : BPredictor ρ σ)
    (instruction : Instruction) (prediction : PredType) (k : HistoryType)
    (h : k ≠ bp.pred.calcInstID instruction) :
    RecordMap.find (bp.recordPredictionResult instruction prediction).predictionRecords k =
      RecordMap.find bp.predictionRecords k := by
  unfold BPredictor.recordPredictionResult
  simp only []
  split_ifs <;> simp [RecordMap.find_update_other _ _ _ _ h]

/-! ## The dispatcher: one call of `BPredictor::predict` -/

section PredictCall

variable {ρ σ : Type} (bp : BPredictor ρ σ) (inst : Instruction) (oracleID : InstID)
  (doUpdate : Bool)

theorem predict_ras :
    (bp.predict inst oracleID doUpdate).2.ras = (bp.ras.doPredict inst oracleID doUpdate).2 := by
  unfold BPredictor.predict BPredictor.recordPredictionResult
  simp only []
  split_ifs <;> rfl

theorem predict_fst_of_ras (h : (bp.ras.doPredict inst oracleID doUpdate).1 ≠ PredType.NoPrediction) :
    (bp.predict inst oracleID doUpdate).1 = (bp.ras.doPredict inst oracleID doUpdate).1 := by
  unfold BPredictor.predict
  simp [h]

theorem predict_fst_of_decline
    (h : (bp.ras.doPredict inst oracleID doUpdate).1 = PredType.NoPrediction) :
    (bp.predict inst oracleID doUpdate).1 = (bp.pred.doPredict inst oracleID doUpdate).1 := by
  unfold BPredictor.predict
  simp [h]

theorem predict_pred_of_ras (h : (bp.ras.doPredict inst oracleID doUpdate).1 ≠ PredType.NoPrediction) :
    (bp.predict inst oracleID doUpdate).2.pred = bp.pred ∧
    (bp.predict inst oracleID doUpdate).2.predictionRecords = bp.predictionRecords := by
  unfold BPredictor.predict
  simp [h]

theorem predict_pred_of_decline
    (h : (bp.ras.doPredict inst oracleID doUpdate).1 = PredType.NoPrediction) :
    (bp.predict inst oracleID doUpdate).2.pred = (bp.pred.doPredict inst oracleID doUpdate).2 := by
  unfold BPredictor.predict BPredictor.recordPredictionResult
  simp only [h]
  split_ifs <;> simp_all

theorem predict_nBranches :
    (bp.predict inst oracleID doUpdate).2.nBranches = GStatsCntr.cinc bp.nBranches doUpdate := by
  unfold BPredictor.predict BPredictor.recordPredictionResult
  simp only []
  split_ifs <;> rfl

theorem predict_nTaken :
    (bp.predict inst oracleID doUpdate).2.nTaken =
      GStatsCntr.cinc bp.nTaken (inst.calcNextInstID != oracleID) := by
  unfold BPredictor.predict BPredictor.recordPredictionResult
  simp only []
  split_ifs <;> rfl

theorem predict_nMiss :
    (bp.predict inst oracleID doUpdate).2.nMiss =
      GStatsCntr.cinc bp.nMiss
        ((bp.predict inst oracleID doUpdate).1 != PredType.CorrectPrediction && doUpdate) := by
  unfold BPredictor.predict BPredictor.recordPredictionResult
  simp only []
  split_ifs <;> rfl

theorem predict_records_of_decline
    (h : (bp.ras.doPredict inst oracleID doUpdate).1 = PredType.NoPrediction)
    (hb : inst.isBranch = true) :
    (bp.predict inst oracleID doUpdate).2.predictionRecords =
      (bp.recordPredictionResult inst
        (bp.predict inst oracleID doUpdate).1).predictionRecords := by
  rw [predict_fst_of_decline bp inst oracleID doUpdate h]
  unfold BPredictor.predict
  simp only [h, hb]
  simp [BPredictor.recordPredictionResult,
    calcInstID_congr bp.pred _ (doPredict_shift bp.pred inst oracleID doUpdate)]

end PredictCall

/-- C1: when the RAS produces a verdict other than `NoPrediction`, `predict`
returns that verdict and leaves the direction predictor (state and counters)
and the diagnostic map as they were; when the RAS declines, `predict` returns
the verdict of the direction predictor's `doPredict` on the same arguments. -/
theorem predict_ras_owns_returns {ρ σ : Type} (bp : BPredictor ρ σ) (inst : Instruction)
    (oracleID : InstID) (doUpdate : Bool) :
    ((bp.ras.doPredict inst oracleID doUpdate).1 ≠ PredType.NoPrediction →
      (bp.predict inst oracleID doUpdate).1 = (bp.ras.doPredict inst oracleID doUpdate).1 ∧
      (bp.predict inst oracleID doUpdate).2.pred = bp.pred ∧
      (bp.predict inst oracleID doUpdate).2.predictionRecords = bp.predictionRecords) ∧
    ((bp.ras.doPredict inst oracleID doUpdate).1 = PredType.NoPrediction →
      (bp.predict inst oracleID doUpdate).1 = (bp.pred.doPredict inst oracleID doUpdate).1 ∧
      (bp.predict inst oracleID doUpdate).2.pred =
        (bp.pred.doPredict inst oracleID doUpdate).2) :=
  ⟨fun h => ⟨predict_fst_of_ras bp inst oracleID doUpdate h,
      predict_pred_of_ras bp inst oracleID doUpdate h⟩,
   fun h => ⟨predict_fst_of_decline bp inst oracleID doUpdate h,
      predict_pred_of_decline bp inst oracleID doUpdate h⟩⟩

/-- C1 evaluated: a RAS answering `MissPrediction` in front of a direction
predictor that would answer `CorrectPrediction`. -/
theorem predict_ras_owns_returns_witness :
    ((BPredictor.fresh (constPred PredType.MissPrediction 1 0)
        (scriptedPred [PredType.CorrectPrediction] 1 0)).predict
          (branchAt 512 516) 516 true).1 = PredType.MissPrediction ∧
    ((BPredictor.fresh (constPred PredType.MissPrediction 1 0)
        (scriptedPred [PredType.CorrectPrediction] 1 0)).predict
          (branchAt 512 516) 516 true).2.pred = scriptedPred [PredType.CorrectPrediction] 1 0 ∧
    ((BPredictor.fresh (constPred PredType.MissPrediction 1 0)
        (scriptedPred [PredType.CorrectPrediction] 1 0)).predict
          (branchAt 512 516) 516 true).2.predictionRecords = [] :=
  (predict_ras_owns_returns
    (BPredictor.fresh (constPred PredType.MissPrediction 1 0)
      (scriptedPred [PredType.CorrectPrediction] 1 0))
    (branchAt 512 516) 516 true).1 (by decide)

/-- C3, what the code does: `nTaken` is counted on every call whose oracle
differs from the fall-through, also when `doUpdate` is false, while `nBranches`
is not touched by such a call. -/
theorem predict_nTaken_without_update {ρ σ : Type} (bp : BPredictor ρ σ) (inst : Instruction)
    (oracleID : InstID) (h : inst.calcNextInstID ≠ oracleID) :
    (bp.predict inst oracleID false).2.nTaken.data = bp.nTaken.data + 1 ∧
    (bp.predict inst oracleID false).2.nBranches = bp.nBranches := by
  rw [predict_nTaken, predict_nBranches]
  simp [GStatsCntr.cinc, h]

/-- C3 evaluated: a taken branch (fall-through 260, oracle 128) predicted with
`doUpdate = false` on a fresh predictor raises `nTaken` from 0 to 1. -/
theorem predict_nTaken_without_update_witness :
    ((BPredictor.fresh (constPred PredType.NoPrediction 1 0)
        (constPred PredType.CorrectPrediction 1 0)).predict
          (branchAt 256 260) 128 false).2.nTaken.data = 0 + 1 ∧
    ((BPredictor.fresh (constPred PredType.NoPrediction 1 0)
        (constPred PredType.CorrectPrediction 1 0)).predict
          (branchAt 256 260) 128 false).2.nBranches = { data := 0 } :=
  predict_nTaken_without_update
    (BPredictor.fresh (constPred PredType.NoPrediction 1 0)
      (constPred PredType.CorrectPrediction 1 0))
    (branchAt 256 260) 128 (by decide)

/-- C6: on either path the top-level `nMiss` grows by exactly one when
`doUpdate` is true and the returned verdict is not `CorrectPrediction`, and is
unchanged otherwise. -/
theorem predict_nMiss_once {ρ σ : Type} (bp : BPredictor ρ σ) (inst : Instruction)
    (oracleID : InstID) (doUpdate : Bool) :
    (bp.predict inst oracleID doUpdate).2.nMiss.data =
      bp.nMiss.data +
        (if doUpdate = true ∧ (bp.predict inst oracleID doUpdate).1 ≠ PredType.CorrectPrediction
          then 1 else 0) := by
  rw [predict_nMiss]
  cases doUpdate <;> cases (bp.predict inst oracleID _).1 <;> simp [GStatsCntr.cinc]

/-- C4 refuted as stated: both sub-predictors answer `NoPrediction`, the call
returns `NoPrediction`, and yet with `doUpdate = true` the counters `nBranches`
and `nMiss` go from 0 to 1 and a record `{0, 1}` is created; with
`doUpdate = false` the record is created all the same. -/
theorem predict_noPrediction_changes_state :
    ((BPredictor.fresh (constPred PredType.NoPrediction 1 0)
        (constPred PredType.NoPrediction 1 0)).predict (branchAt 256 260) 260 true).1
      = PredType.NoPrediction ∧
    ((BPredictor.fresh (constPred PredType.NoPrediction 1 0)
        (constPred PredType.NoPrediction 1 0)).predict (branchAt 256 260) 260 true).2.nBranches
      = { data := 1 } ∧
    ((BPredictor.fresh (constPred PredType.NoPrediction 1 0)
        (constPred PredType.NoPrediction 1 0)).predict (branchAt 256 260) 260 true).2.nMiss
      = { data := 1 } ∧
    ((BPredictor.fresh (constPred PredType.NoPrediction 1 0)
        (constPred PredType.NoPrediction 1 0)).predict
          (branchAt 256 260) 260 true).2.predictionRecords
      = [(256, { correctPredictions := 0, mispredictions := 1 })] ∧
    ((BPredictor.fresh (constPred PredType.NoPrediction 1 0)
        (constPred PredType.NoPrediction 1 0)).predict (branchAt 256 260) 260 false).1
      = PredType.NoPrediction ∧
    ((BPredictor.fresh (constPred PredType.NoPrediction 1 0)
        (constPred PredType.NoPrediction 1 0)).predict
          (branchAt 256 260) 260 false).2.predictionRecords
      = [(256, { correctPredictions := 0, mispredictions := 1 })] ∧
    (BPredictor.fresh (constPred PredType.NoPrediction 1 0)
        (constPred PredType.NoPrediction 1 0)).nBranches = { data := 0 } ∧
    (BPredictor.fresh (constPred PredType.NoPrediction 1 0)
        (constPred PredType.NoPrediction 1 0)).nMiss = { data := 0 } ∧
    (BPredictor.fresh (constPred PredType.NoPrediction 1 0)
        (constPred PredType.NoPrediction 1 0)).predictionRecords = [] := by
  decide

/-- C4 as amended: a call that returns `NoPrediction` is a call on which both
the RAS and the direction predictor were consulted and answered `NoPrediction`;
`nBranches` and `nMiss` each grow by one when `doUpdate` is true and keep their
value when it is false, the sub-predictors' `nHit`/`nMiss` keep their values,
and for a branch instruction the diagnostic map receives the tally of a
`NoPrediction`, which changes the record found under `calcInstID(inst)`. -/
theorem predict_noPrediction_effects {ρ σ : Type} (bp : BPredictor ρ σ) (inst : Instruction)
    (oracleID : InstID) (doUpdate : Bool)
    (h : (bp.predict inst oracleID doUpdate).1 = PredType.NoPrediction) :
    (bp.ras.doPredict inst oracleID doUpdate).1 = PredType.NoPrediction ∧
    (bp.pred.doPredict inst oracleID doUpdate).1 = PredType.NoPrediction ∧
    (bp.predict inst oracleID doUpdate).2.ras = (bp.ras.doPredict inst oracleID doUpdate).2 ∧
    (bp.predict inst oracleID doUpdate).2.pred = (bp.pred.doPredict inst oracleID doUpdate).2 ∧
    (bp.predict inst oracleID doUpdate).2.nBranches.data =
      bp.nBranches.data + (if doUpdate = true then 1 else 0) ∧
    (bp.predict inst oracleID doUpdate).2.nMiss.data =
      bp.nMiss.data + (if doUpdate = true then 1 else 0) ∧
    (bp.predict inst oracleID doUpdate).2.ras.nHit = bp.ras.nHit ∧
    (bp.predict inst oracleID doUpdate).2.ras.nMiss = bp.ras.nMiss ∧
    (bp.predict inst oracleID doUpdate).2.pred.nHit = bp.pred.nHit ∧
    (bp.predict inst oracleID doUpdate).2.pred.nMiss = bp.pred.nMiss ∧
    (inst.isBranch = true →
      (bp.predict inst oracleID doUpdate).2.predictionRecords =
        (bp.recordPredictionResult inst PredType.NoPrediction).predictionRecords ∧
      RecordMap.find (bp.predict inst oracleID doUpdate).2.predictionRecords
          (bp.pred.calcInstID inst) ≠
        RecordMap.find bp.predictionRecords (bp.pred.calcInstID inst) ∧
      (InInt32 (((RecordMap.find bp.predictionRecords (bp.pred.calcInstID inst)).getD
          { correctPredictions := 0, mispredictions := 0 }).mispredictions + 1) →
        RecordMap.find (bp.predict inst oracleID doUpdate).2.predictionRecords
            (bp.pred.calcInstID inst) =
          some (((RecordMap.find bp.predictionRecords (bp.pred.calcInstID inst)).getD
            { correctPredictions := 0, mispredictions := 0 }).tallied
              PredType.NoPrediction))) := by
  have hr : (bp.ras.doPredict inst oracleID doUpdate).1 = PredType.NoPrediction := by
    by_contra hne
    exact hne ((predict_fst_of_ras bp inst oracleID doUpdate hne).symm.trans h)
  have hd : (bp.pred.doPredict inst oracleID doUpdate).1 = PredType.NoPrediction :=
    (predict_fst_of_decline bp inst oracleID doUpdate hr).symm.trans h
  have cnt : ∀ {τ : Type} (b : BPred τ),
      (b.doPredict inst oracleID doUpdate).1 = PredType.NoPrediction →
      (b.doPredict inst oracleID doUpdate).2.nHit = b.nHit ∧
      (b.doPredict inst oracleID doUpdate).2.nMiss = b.nMiss := by
    intro τ b hb
    rw [doPredict_fst] at hb
    unfold BPred.doPredict
    simp [hb]
  have hpred := predict_pred_of_decline bp inst oracleID doUpdate hr
  refine ⟨hr, hd, predict_ras bp inst oracleID doUpdate, hpred, ?_, ?_, ?_, ?_, ?_, ?_, ?_⟩
  · rw [predict_nBranches]; cases doUpdate <;> simp [GStatsCntr.cinc]
  · rw [predict_nMiss, h]; cases doUpdate <;> simp [GStatsCntr.cinc]
  · rw [predict_ras]; exact (cnt bp.ras hr).1
  · rw [predict_ras]; exact (cnt bp.ras hr).2
  · rw [hpred]; exact (cnt bp.pred hd).1
  · rw [hpred]; exact (cnt bp.pred hd).2
  · intro hb
    have hrec := predict_records_of_decline bp inst oracleID doUpdate hr hb
    rw [h] at hrec
    refine ⟨hrec, ?_, ?_⟩
    · rw [hrec, recordPredictionResult_find_self]
      simp only [reduceCtorEq, if_false]
      intro hEq
      cases hf : RecordMap.find bp.predictionRecords (bp.pred.calcInstID inst) with
      | none => rw [hf] at hEq; exact Option.noConfusion hEq
      | some r =>
        rw [hf] at hEq
        simp only [Option.getD_some, Option.some.injEq] at hEq
        have hm := congrArg BranchRecord.mispredictions hEq
        exact wrapInt32_succ_ne _ hm
    · intro hfit
      rw [hrec, recordPredictionResult_find_self]
      simp only [reduceCtorEq, if_false, BranchRecord.tallied, wrapInt32_of_inRange _ hfit]

/-- C4 as amended, evaluated on an update call answered `NoPrediction` by both
sub-predictors. -/
theorem predict_noPrediction_effects_witness :
    ((BPredictor.fresh (constPred PredType.NoPrediction 1 0)
        (constPred PredType.NoPrediction 1 0)).predict
          (branchAt 256 260) 260 true).2.nBranches.data = 0 + (if true = true then 1 else 0) ∧
    ((BPredictor.fresh (constPred PredType.NoPrediction 1 0)
        (constPred PredType.NoPrediction 1 0)).predict
          (branchAt 256 260) 260 true).2.nMiss.data = 0 + (if true = true then 1 else 0) :=
  ⟨(predict_noPrediction_effects (BPredictor.fresh (constPred PredType.NoPrediction 1 0)
      (constPred PredType.NoPrediction 1 0)) (branchAt 256 260) 260 true (by decide)).2.2.2.2.1,
   (predict_noPrediction_effects (BPredictor.fresh (constPred PredType.NoPrediction 1 0)
      (constPred PredType.NoPrediction 1 0)) (branchAt 256 260) 260 true (by decide)).2.2.2.2.2.1⟩

/-- C7 refuted as stated: with `bpred4Cycle = 1` and an address shift of 2, two
branches at pseudo-PCs 256 and 257 (equal above the two low bits) are predicted
back to back; the RAS answers `CorrectPrediction` and the second call returns
`CorrectPrediction`, not `NoPrediction`, after the RAS was invoked again. -/
theorem predict_second_call_not_cancelled :
    (((BPredictor.fresh (scriptedPred [PredType.NoPrediction, PredType.CorrectPrediction] 1 2)
        (constPred PredType.MissPrediction 1 2)).predict (branchAt 256 260) 260 true).2.predict
          (branchAt 257 261) 261 true).1 = PredType.CorrectPrediction ∧
    (((BPredictor.fresh (scriptedPred [PredType.NoPrediction, PredType.CorrectPrediction] 1 2)
        (constPred PredType.MissPrediction 1 2)).predict (branchAt 256 260) 260 true).2.predict
          (branchAt 257 261) 261 true).2.ras.self = [] ∧
    (BPredictor.fresh (scriptedPred [PredType.NoPrediction, PredType.CorrectPrediction] 1 2)
        (constPred PredType.MissPrediction 1 2)).pred.bpred4Cycle = 1 ∧
    (256 : Nat) >>> 2 = 257 >>> 2 := by
  decide

/-- C7 as amended: the dispatcher has no bandwidth path.  Every call runs the
RAS's `doPredict`; the returned verdict is `NoPrediction` exactly when both the
RAS and the direction predictor answer `NoPrediction`; and two instructions
whose pseudo-PCs agree above the low `bpred4CycleAddrShift` bits merely share
one `calcInstID`, hence one diagnostic record. -/
theorem predict_no_bandwidth_path {ρ σ : Type} (bp : BPredictor ρ σ) (inst : Instruction)
    (oracleID : InstID) (doUpdate : Bool) :
    (bp.predict inst oracleID doUpdate).2.ras = (bp.ras.doPredict inst oracleID doUpdate).2 ∧
    ((bp.predict inst oracleID doUpdate).1 = PredType.NoPrediction ↔
      (bp.ras.doPredict inst oracleID doUpdate).1 = PredType.NoPrediction ∧
      (bp.pred.doPredict inst oracleID doUpdate).1 = PredType.NoPrediction) ∧
    (∀ other : Instruction,
      (inst.currentID % 2 ^ 64) >>> bp.pred.bpred4CycleAddrShift =
        (other.currentID % 2 ^ 64) >>> bp.pred.bpred4CycleAddrShift →
      bp.pred.calcInstID inst = bp.pred.calcInstID other) := by
  refine ⟨predict_ras bp inst oracleID doUpdate, ⟨fun h => ?_, fun h => ?_⟩, fun other h => ?_⟩
  · have hr : (bp.ras.doPredict inst oracleID doUpdate).1 = PredType.NoPrediction := by
      by_contra hne
      exact hne ((predict_fst_of_ras bp inst oracleID doUpdate hne).symm.trans h)
    exact ⟨hr, (predict_fst_of_decline bp inst oracleID doUpdate hr).symm.trans h⟩
  · rw [predict_fst_of_decline bp inst oracleID doUpdate h.1]
    exact h.2
  · simp only [BPred.calcInstID, h]

/-- C7 as amended, evaluated: the two branches of the refutation share one
`calcInstID`. -/
theorem predict_no_bandwidth_path_witness :
    (constPred PredType.MissPrediction 1 2).calcInstID (branchAt 256 260) =
      (constPred PredType.MissPrediction 1 2).calcInstID (branchAt 257 261) :=
  (predict_no_bandwidth_path
    (BPredictor.fresh (scriptedPred [PredType.NoPrediction, PredType.CorrectPrediction] 1 2)
      (constPred PredType.MissPrediction 1 2)) (branchAt 256 260) 260 true).2.2
    (branchAt 257 261) (by decide)

/-! ## `calcInstID` -/

/-- The randomising step `x ↦ (x >> 17) xor x` is injective. -/
theorem fold17_injective (x y : Nat) (h : (x >>> 17) ^^^ x = (y >>> 17) ^^^ y) : x = y := by
  have key : ((x ^^^ y) >>> 17) ^^^ (x ^^^ y) = 0 := by
    have e : ((x ^^^ y) >>> 17) ^^^ (x ^^^ y) = ((x >>> 17) ^^^ x) ^^^ ((y >>> 17) ^^^ y) := by
      apply Nat.eq_of_testBit_eq
      intro i
      simp only [Nat.testBit_xor, Nat.testBit_shiftRight]
      cases x.testBit (17 + i) <;> cases y.testBit (17 + i) <;> cases x.testBit i <;>
        cases y.testBit i <;> rfl
    rw [e, h, Nat.xor_self]
  have hd : (x ^^^ y) >>> 17 = x ^^^ y := Nat.xor_eq_zero.mp key
  have hz : x ^^^ y = 0 := by
    rw [Nat.shiftRight_eq_div_pow] at hd
    by_contra hne
    have hpos : 0 < x ^^^ y := Nat.pos_of_ne_zero hne
    have hlt : (x ^^^ y) / 2 ^ 17 < x ^^^ y := Nat.div_lt_self hpos (by norm_num)
    omega
  exact Nat.xor_eq_zero.mp hz

/-- C10: for a shift below 64 and identifiers below `2^64`, `calcInstID` gives
two instructions the same value exactly when their identifiers agree after the
shift: only the low `bpred4CycleAddrShift` bits are collapsed. -/
theorem calcInstID_eq_iff {σ : Type} (b : BPred σ) (i j : Instruction)
    (_hs : b.bpred4CycleAddrShift < 64) (hi : i.currentID < 2 ^ 64) (hj : j.currentID < 2 ^ 64) :
    b.calcInstID i = b.calcInstID j ↔
      i.currentID >>> b.bpred4CycleAddrShift = j.currentID >>> b.bpred4CycleAddrShift := by
  unfold BPred.calcInstID
  simp only [Nat.mod_eq_of_lt hi, Nat.mod_eq_of_lt hj]
  constructor
  · exact fold17_injective _ _
  · intro h
    rw [h]

/-- C10 evaluated: with shift 2 the identifiers 256 and 257 collide, and they
agree after the shift. -/
theorem calcInstID_eq_iff_witness :
    (constPred PredType.CorrectPrediction 1 2).calcInstID (branchAt 256 260) =
        (constPred PredType.CorrectPrediction 1 2).calcInstID (branchAt 257 261) ↔
      (256 : Nat) >>> 2 = 257 >>> 2 :=
  calcInstID_eq_iff (constPred PredType.CorrectPrediction 1 2) (branchAt 256 260)
    (branchAt 257 261) (by decide) (by decide) (by decide)

/-! ## The histogram of `printResults` -/

theorem wrapInt32_wrap_add (a b : Int) : wrapInt32 (wrapInt32 a + b) = wrapInt32 (a + b) := by
  unfold wrapInt32
  omega

theorem wrapInt32_inRange (a : Int) : InInt32 (wrapInt32 a) := by
  unfold wrapInt32 InInt32
  omega

theorem bucketRecords_cons (b : Bucket) (kv : HistoryType × BranchRecord) (t : RecordMap) :
    bucketRecords b (kv :: t) =
      if b.holds kv.2.total = true then kv.2 :: bucketRecords b t else bucketRecords b t := by
  unfold bucketRecords
  by_cases h : b.holds kv.2.total = true <;> simp [List.filter_cons, h]

theorem specHistogram_cons (kv : HistoryType × BranchRecord) (t : RecordMap) :
    specHistogram (kv :: t) =
      Histogram.zipWith (fun a b => a + b) (specHistogram [kv]) (specHistogram t) := by
  simp only [specHistogram, Histogram.zipWith, bucketCount, bucketCorrect, bucketMispredicted,
    bucketRecords_cons, Histogram.mk.injEq]
  have nil : ∀ b, bucketRecords b [] = [] := fun b => rfl
  simp only [nil]
  refine ⟨?_, ?_, ?_, ?_, ?_, ?_, ?_, ?_, ?_, ?_, ?_, ?_⟩ <;> split_ifs <;> simp <;> omega

theorem printResultsBody_eq (acc : Histogram) (kv : HistoryType × BranchRecord)
    (hacc : acc.InRange) (hkv : InInt32 kv.2.total) :
    printResultsBody acc kv = Histogram.zipWith addInt32 acc (specHistogram [kv]) := by
  obtain ⟨h1, h2, h3, h4, h5, h6, h7, h8, h9, h10, h11, h12⟩ := hacc
  replace h1 := wrapInt32_of_inRange _ h1
  replace h2 := wrapInt32_of_inRange _ h2
  replace h3 := wrapInt32_of_inRange _ h3
  replace h4 := wrapInt32_of_inRange _ h4
  replace h5 := wrapInt32_of_inRange _ h5
  replace h6 := wrapInt32_of_inRange _ h6
  replace h7 := wrapInt32_of_inRange _ h7
  replace h8 := wrapInt32_of_inRange _ h8
  replace h9 := wrapInt32_of_inRange _ h9
  replace h10 := wrapInt32_of_inRange _ h10
  replace h11 := wrapInt32_of_inRange _ h11
  replace h12 := wrapInt32_of_inRange _ h12
  have ht : wrapInt32 (kv.2.correctPredictions + kv.2.mispredictions) = kv.2.total :=
    wrapInt32_of_inRange _ hkv
  have nil : ∀ b, bucketRecords b [] = [] := fun b => rfl
  unfold printResultsBody
  simp only [ht, specHistogram, Histogram.zipWith, bucketCount, bucketCorrect,
    bucketMispredicted, bucketRecords_cons, nil, addInt32, Bucket.holds, decide_eq_true_eq]
  by_cases c1 : kv.2.total < 10
  · have c2 : ¬ (10 ≤ kv.2.total ∧ kv.2.total ≤ 99) := by omega
    have c3 : ¬ (100 ≤ kv.2.total ∧ kv.2.total ≤ 999) := by omega
    have c4 : ¬ (1000 ≤ kv.2.total) := by omega
    simp [c1, c2, c3, c4, h1, h2, h3, h4, h5, h6, h7, h8, h9, h10, h11, h12]
  · by_cases c2 : kv.2.total < 100
    · have c2' : 10 ≤ kv.2.total ∧ kv.2.total ≤ 99 := by omega
      have c2'' : kv.2.total ≥ 10 ∧ kv.2.total < 100 := by omega
      have c3 : ¬ (100 ≤ kv.2.total ∧ kv.2.total ≤ 999) := by omega
      have c4 : ¬ (1000 ≤ kv.2.total) := by omega
      simp [c1, c2', c2'', c3, c4, h1, h2, h3, h4, h5, h6, h7, h8, h9, h10, h11, h12]
    · by_cases c3 : kv.2.total < 1000
      · have c2' : ¬ (10 ≤ kv.2.total ∧ kv.2.total ≤ 99) := by omega
        have c2'' : ¬ (kv.2.total ≥ 10 ∧ kv.2.total < 100) := by omega
        have c3' : 100 ≤ kv.2.total ∧ kv.2.total ≤ 999 := by omega
        have c3'' : kv.2.total ≥ 100 ∧ kv.2.total < 1000 := by omega
        have c4 : ¬ (1000 ≤ kv.2.total) := by omega
        simp [c1, c2', c2'', c3', c3'', c4, h1, h2, h3, h4, h5, h6, h7, h8, h9, h10, h11,
          h12]
      · have c2' : ¬ (10 ≤ kv.2.total ∧ kv.2.total ≤ 99) := by omega
        have c2'' : ¬ (kv.2.total ≥ 10 ∧ kv.2.total < 100) := by omega
        have c3' : ¬ (100 ≤ kv.2.total ∧ kv.2.total ≤ 999) := by omega
        have c3'' : ¬ (kv.2.total ≥ 100 ∧ kv.2.total < 1000) := by omega
        have c4 : 1000 ≤ kv.2.total := by omega
        have c4' : kv.2.total ≥ 1000 := c4
        simp [c1, c2', c2'', c3', c3'', c4, c4', h1, h2, h3, h4, h5, h6, h7, h8, h9, h10,
          h11, h12]

theorem zipWith_addInt32_inRange (acc g : Histogram) :
    (Histogram.zipWith addInt32 acc g).InRange := by
  simp only [Histogram.InRange, Histogram.zipWith, addInt32]
  exact ⟨wrapInt32_inRange _, wrapInt32_inRange _, wrapInt32_inRange _, wrapInt32_inRange _,
    wrapInt32_inRange _, wrapInt32_inRange _, wrapInt32_inRange _, wrapInt32_inRange _,
    wrapInt32_inRange _, wrapInt32_inRange _, wrapInt32_inRange _, wrapInt32_inRange _⟩

theorem zipWith_addInt32_assoc (acc g₁ g₂ : Histogram) :
    Histogram.zipWith addInt32 (Histogram.zipWith addInt32 acc g₁) g₂ =
      Histogram.zipWith addInt32 acc (Histogram.zipWith (fun a b => a + b) g₁ g₂) := by
  simp [Histogram.zipWith, addInt32, wrapInt32_wrap_add, Int.add_assoc]

theorem zipWith_addInt32_nil (acc : Histogram) (hacc : acc.InRange) :
    Histogram.zipWith addInt32 acc (specHistogram []) = acc := by
  obtain ⟨h1, h2, h3, h4, h5, h6, h7, h8, h9, h10, h11, h12⟩ := hacc
  have nil : ∀ b, bucketRecords b [] = [] := fun b => rfl
  simp [Histogram.zipWith, addInt32, specHistogram, bucketCount, bucketCorrect,
    bucketMispredicted, nil, wrapInt32_of_inRange, h1, h2, h3, h4, h5, h6, h7, h8, h9, h10,
    h11, h12]

/-- The loop of `printResults` started from in-range accumulators adds, modulo
the width of `int`, the histogram of the specification. -/
theorem foldl_printResultsBody (m : RecordMap) (hm : RecordMap.TotalsInRange m) :
    ∀ acc : Histogram, acc.InRange →
      m.foldl printResultsBody acc = Histogram.zipWith addInt32 acc (specHistogram m) := by
  induction m with
  | nil =>
    intro acc hacc
    rw [zipWith_addInt32_nil acc hacc]
    rfl
  | cons kv t ih =>
    intro acc hacc
    have hkv : InInt32 kv.2.total := hm kv (List.mem_cons_self _ _)
    have ht : RecordMap.TotalsInRange t := fun x hx => hm x (List.mem_cons_of_mem _ hx)
    rw [List.foldl_cons, printResultsBody_eq acc kv hacc hkv,
      ih ht _ (zipWith_addInt32_inRange _ _), zipWith_addInt32_assoc, ← specHistogram_cons]

theorem bucket_unique (t : Int) : ∃! b : Bucket, b.holds t = true := by
  by_cases c1 : t < 10
  · refine ⟨Bucket.lessThan10, by simp [Bucket.holds, c1], ?_⟩
    intro b hb
    cases b <;> simp [Bucket.holds] at hb ⊢ <;> omega
  · by_cases c2 : t < 100
    · refine ⟨Bucket.from10To99, by simp [Bucket.holds]; omega, ?_⟩
      intro b hb
      cases b <;> simp [Bucket.holds] at hb ⊢ <;> omega
    · by_cases c3 : t < 1000
      · refine ⟨Bucket.from100To999, by simp [Bucket.holds]; omega, ?_⟩
        intro b hb
        cases b <;> simp [Bucket.holds] at hb ⊢ <;> omega
      · refine ⟨Bucket.moreThan999, by simp [Bucket.holds]; omega, ?_⟩
        intro b hb
        cases b <;> simp [Bucket.holds] at hb ⊢ <;> omega

theorem bucketCount_sum (m : RecordMap) :
    bucketCount Bucket.lessThan10 m + bucketCount Bucket.from10To99 m +
      bucketCount Bucket.from100To999 m + bucketCount Bucket.moreThan999 m = (m.length : Int) := by
  induction m with
  | nil => rfl
  | cons kv t ih =>
    simp only [bucketCount, bucketRecords_cons, Bucket.holds, decide_eq_true_eq,
      List.length_cons] at ih ⊢
    by_cases c1 : kv.2.total < 10
    · have c2 : ¬ (10 ≤ kv.2.total ∧ kv.2.total ≤ 99) := by omega
      have c3 : ¬ (100 ≤ kv.2.total ∧ kv.2.total ≤ 999) := by omega
      have c4 : ¬ (1000 ≤ kv.2.total) := by omega
      simp only [c1, c2, c3, c4, if_true, if_false, List.length_cons]
      push_cast
      omega
    · by_cases c2 : 10 ≤ kv.2.total ∧ kv.2.total ≤ 99
      · have c3 : ¬ (100 ≤ kv.2.total ∧ kv.2.total ≤ 999) := by omega
        have c4 : ¬ (1000 ≤ kv.2.total) := by omega
        simp only [c1, c2, c3, c4, if_true, if_false, List.length_cons, and_self]
        push_cast
        omega
      · by_cases c3 : 100 ≤ kv.2.total ∧ kv.2.total ≤ 999
        · have c4 : ¬ (1000 ≤ kv.2.total) := by omega
          simp only [c1, c2, c3, c4, if_true, if_false, List.length_cons, and_self]
          push_cast
          omega
        · have c4 : 1000 ≤ kv.2.total := by omega
          simp only [c1, c2, c3, c4, if_true, if_false, List.length_cons]
          push_cast
          omega

/-- C8: when every record total and every bucket value fits in an `int`, the
histogram computed by `printResults` is the one the specification describes:
each bucket's instruction count, correct total and mispredict total are the
count and the sums over exactly the records whose total lies in the bucket's
range; the four counts add up to the number of records; every record total lies
in exactly one range; and the boundaries fall between 9 and 10, 99 and 100, 999
and 1000. -/
theorem printResults_histogram {ρ σ : Type} (bp : BPredictor ρ σ)
    (htot : RecordMap.TotalsInRange bp.predictionRecords)
    (hrange : (specHistogram bp.predictionRecords).InRange) :
    bp.printResults = specHistogram bp.predictionRecords ∧
    bp.printResults.numInstructionsExecutedLessThan10Times +
        bp.printResults.numInstructionsExecuted10To99Times +
        bp.printResults.numInstructionsExecuted100To999Times +
        bp.printResults.numInstructionsExecutedMoreThan999Times =
      (bp.predictionRecords.length : Int) ∧
    (∀ kv ∈ bp.predictionRecords, ∃! b : Bucket, b.holds kv.2.total = true) ∧
    (Bucket.lessThan10.holds 9 = true ∧ Bucket.from10To99.holds 10 = true ∧
      Bucket.from10To99.holds 99 = true ∧ Bucket.from100To999.holds 100 = true ∧
      Bucket.from100To999.holds 999 = true ∧ Bucket.moreThan999.holds 1000 = true) := by
  have hz : Histogram.zero.InRange := by decide
  have hfold : bp.printResults = specHistogram bp.predictionRecords := by
    unfold BPredictor.printResults
    rw [foldl_printResultsBody _ htot _ hz]
    obtain ⟨h1, h2, h3, h4, h5, h6, h7, h8, h9, h10, h11, h12⟩ := hrange
    simp only [specHistogram] at h1 h2 h3 h4 h5 h6 h7 h8 h9 h10 h11 h12
    simp only [Histogram.zipWith, addInt32, Histogram.zero, specHistogram, Int.zero_add,
      wrapInt32_of_inRange _ h1, wrapInt32_of_inRange _ h2, wrapInt32_of_inRange _ h3,
      wrapInt32_of_inRange _ h4, wrapInt32_of_inRange _ h5, wrapInt32_of_inRange _ h6,
      wrapInt32_of_inRange _ h7, wrapInt32_of_inRange _ h8, wrapInt32_of_inRange _ h9,
      wrapInt32_of_inRange _ h10, wrapInt32_of_inRange _ h11, wrapInt32_of_inRange _ h12]
  refine ⟨hfold, ?_, fun kv _ => bucket_unique kv.2.total, by decide⟩
  rw [hfold]
  exact bucketCount_sum bp.predictionRecords

/-- C8 evaluated on a map with totals 9, 10, 99, 100, 999 and 1000. -/
theorem printResults_histogram_witness :
    ({ BPredictor.fresh (constPred PredType.NoPrediction 1 0)
        (constPred PredType.NoPrediction 1 0) with
        predictionRecords := boundaryRecords }).printResults = specHistogram boundaryRecords ∧
    specHistogram boundaryRecords =
      { numInstructionsExecutedLessThan10Times := 1
        numInstructionsExecuted10To99Times := 2
        numInstructionsExecuted100To999Times := 2
        numInstructionsExecutedMoreThan999Times := 1
        numCorrectPredictionsLessThan10Times := 5
        numMispredictionsLessThan10Times := 4
        numCorrectPredictions10To99Times := 97
        numMispredictions10To99Times := 12
        numCorrectPredictions100To999Times := 960
        numMispredictions100To999Times := 139
        numCorrectPredictionsMoreThan999Times := 1000
        numMispredictionsMoreThan999Times := 0 } :=
  ⟨(printResults_histogram
      { BPredictor.fresh (constPred PredType.NoPrediction 1 0)
          (constPred PredType.NoPrediction 1 0) with predictionRecords := boundaryRecords }
      (by decide) (by decide)).1, by decide⟩

/-! ## Runs of the dispatcher -/

/-- One call keeps the balance between `nBranches` and the sub-predictors'
counters: the top-level counter and the sum of the four sub-predictor counters
grow together, except on an update call answered `NoPrediction`. -/
theorem predict_counter_balance {ρ σ : Type} (bp : BPredictor ρ σ) (inst : Instruction)
    (oracleID : InstID) (doUpdate : Bool) :
    (bp.predict inst oracleID doUpdate).2.nBranches.data +
        (bp.ras.nHit.data + bp.pred.nHit.data + (bp.ras.nMiss.data + bp.pred.nMiss.data)) =
      bp.nBranches.data +
        ((bp.predict inst oracleID doUpdate).2.ras.nHit.data +
          (bp.predict inst oracleID doUpdate).2.pred.nHit.data +
          ((bp.predict inst oracleID doUpdate).2.ras.nMiss.data +
            (bp.predict inst oracleID doUpdate).2.pred.nMiss.data)) +
        (if doUpdate = true ∧ (bp.predict inst oracleID doUpdate).1 = PredType.NoPrediction
          then 1 else 0) := by
  have hras := doPredict_counter_sum bp.ras inst oracleID doUpdate
  have hpred := doPredict_counter_sum bp.pred inst oracleID doUpdate
  have hb : (bp.predict inst oracleID doUpdate).2.nBranches.data =
      bp.nBranches.data + (if doUpdate = true then 1 else 0) := by
    rw [predict_nBranches]; cases doUpdate <;> simp [GStatsCntr.cinc]
  rw [hb, predict_ras]
  by_cases hr : (bp.ras.doPredict inst oracleID doUpdate).1 = PredType.NoPrediction
  · rw [predict_pred_of_decline bp inst oracleID doUpdate hr,
      predict_fst_of_decline bp inst oracleID doUpdate hr]
    rw [hr] at hras
    by_cases hd : (bp.pred.doPredict inst oracleID doUpdate).1 = PredType.NoPrediction
    · rw [hd] at hpred ⊢
      cases doUpdate <;> simp at hras hpred ⊢ <;> omega
    · cases doUpdate <;> simp [hd] at hras hpred ⊢ <;> omega
  · rw [(predict_pred_of_ras bp inst oracleID doUpdate hr).1,
      predict_fst_of_ras bp inst oracleID doUpdate hr]
    cases doUpdate <;> simp [hr] at hras ⊢ <;> omega

theorem nNoPrediction_cons (o : Outcome) (log : List Outcome) :
    nNoPrediction (o :: log) =
      (if o.call.doUpdate = true ∧ o.verdict = PredType.NoPrediction then 1 else 0) +
        nNoPrediction log := by
  obtain ⟨c, rv, v⟩ := o
  cases hd : c.doUpdate <;> cases v <;>
    simp [nNoPrediction, List.filter_cons, hd, Nat.add_comm]

theorem nRasDeclined_cons (o : Outcome) (log : List Outcome) :
    nRasDeclined (o :: log) =
      (if o.rasVerdict = PredType.NoPrediction then 1 else 0) + nRasDeclined log := by
  obtain ⟨c, rv, v⟩ := o
  cases rv <;> simp [nRasDeclined, List.filter_cons, Nat.add_comm]

theorem run_counter_balance {ρ σ : Type} (calls : List Call) :
    ∀ bp : BPredictor ρ σ,
      (bp.run calls).2.nBranches.data +
          (bp.ras.nHit.data + bp.pred.nHit.data + (bp.ras.nMiss.data + bp.pred.nMiss.data)) =
        bp.nBranches.data +
          ((bp.run calls).2.ras.nHit.data + (bp.run calls).2.pred.nHit.data +
            ((bp.run calls).2.ras.nMiss.data + (bp.run calls).2.pred.nMiss.data)) +
          nNoPrediction (bp.run calls).1 := by
  induction calls with
  | nil => intro bp; simp [BPredictor.run, nNoPrediction]
  | cons c cs ih =>
    intro bp
    have h1 := predict_counter_balance bp c.inst c.oracleID c.doUpdate
    have h2 := ih (bp.predict c.inst c.oracleID c.doUpdate).2
    have hn : nNoPrediction (bp.run (c :: cs)).1 =
        (if c.doUpdate = true ∧
            (bp.predict c.inst c.oracleID c.doUpdate).1 = PredType.NoPrediction then 1 else 0) +
          nNoPrediction ((bp.predict c.inst c.oracleID c.doUpdate).2.run cs).1 := by
      simp only [BPredictor.run, nNoPrediction_cons]
    rw [hn]
    simp only [BPredictor.run]
    omega

/-- C5: from counters at zero, after every finite run of `predict` calls the
top-level `nBranches` equals the sub-predictors' hits plus their misses plus the
number of update calls whose returned verdict was `NoPrediction`; a call with
`doUpdate = false` changes none of the five counters involved. -/
theorem run_counter_consistency {ρ σ : Type} (bp : BPredictor ρ σ) (calls : List Call)
    (h0 : bp.nBranches.data = 0 ∧ bp.ras.nHit.data = 0 ∧ bp.ras.nMiss.data = 0 ∧
      bp.pred.nHit.data = 0 ∧ bp.pred.nMiss.data = 0) :
    (bp.run calls).2.nBranches.data =
        ((bp.run calls).2.ras.nHit.data + (bp.run calls).2.pred.nHit.data) +
        ((bp.run calls).2.ras.nMiss.data + (bp.run calls).2.pred.nMiss.data) +
        nNoPrediction (bp.run calls).1 ∧
    (∀ (b : BPredictor ρ σ) (inst : Instruction) (oracleID : InstID),
      (b.predict inst oracleID false).2.nBranches = b.nBranches ∧
      (b.predict inst oracleID false).2.ras.nHit = b.ras.nHit ∧
      (b.predict inst oracleID false).2.ras.nMiss = b.ras.nMiss ∧
      (b.predict inst oracleID false).2.pred.nHit = b.pred.nHit ∧
      (b.predict inst oracleID false).2.pred.nMiss = b.pred.nMiss) := by
  constructor
  · have h := run_counter_balance calls bp
    obtain ⟨a, b, c, d, e⟩ := h0
    omega
  · intro b inst oracleID
    refine ⟨?_, ?_, ?_, ?_, ?_⟩
    · rw [predict_nBranches]; simp [GStatsCntr.cinc]
    · rw [predict_ras]; exact (doPredict_noUpdate b.ras inst oracleID).1
    · rw [predict_ras]; exact (doPredict_noUpdate b.ras inst oracleID).2
    · by_cases hr : (b.ras.doPredict inst oracleID false).1 = PredType.NoPrediction
      · rw [predict_pred_of_decline b inst oracleID false hr]
        exact (doPredict_noUpdate b.pred inst oracleID).1
      · rw [(predict_pred_of_ras b inst oracleID false hr).1]
    · by_cases hr : (b.ras.doPredict inst oracleID false).1 = PredType.NoPrediction
      · rw [predict_pred_of_decline b inst oracleID false hr]
        exact (doPredict_noUpdate b.pred inst oracleID).2
      · rw [(predict_pred_of_ras b inst oracleID false hr).1]

/-- C5 evaluated on the scripted run: of three update calls one is settled by
the RAS (a hit), one by the direction predictor (a hit) and one is answered
`NoPrediction`; the call without update counts nowhere. -/
theorem run_counter_consistency_witness :
    (scriptedPredictor.run scriptedCalls).2.nBranches.data = 3 ∧
    (scriptedPredictor.run scriptedCalls).2.ras.nHit.data = 1 ∧
    (scriptedPredictor.run scriptedCalls).2.pred.nHit.data = 1 ∧
    nNoPrediction (scriptedPredictor.run scriptedCalls).1 = 1 ∧
    (scriptedPredictor.run scriptedCalls).2.nBranches.data =
      ((scriptedPredictor.run scriptedCalls).2.ras.nHit.data +
        (scriptedPredictor.run scriptedCalls).2.pred.nHit.data) +
      ((scriptedPredictor.run scriptedCalls).2.ras.nMiss.data +
        (scriptedPredictor.run scriptedCalls).2.pred.nMiss.data) +
      nNoPrediction (scriptedPredictor.run scriptedCalls).1 :=
  ⟨by decide, by decide, by decide, by decide,
    (run_counter_consistency scriptedPredictor scriptedCalls (by decide)).1⟩

/-! ## The diagnostic tally -/

theorem RecordMap.mem_of_find (m : RecordMap) (k : HistoryType) (r : BranchRecord)
    (h : RecordMap.find m k = some r) : (k, r) ∈ m := by
  induction m with
  | nil => simp [RecordMap.find] at h
  | cons kv t ih =>
    obtain ⟨k', r'⟩ := kv
    by_cases hk : k' = k
    · simp [RecordMap.find, hk] at h
      simp [hk, h]
    · simp [RecordMap.find, hk] at h
      exact List.mem_cons_of_mem _ (ih h)

theorem RecordMap.tally_update (m : RecordMap) (k : HistoryType)
    (f : BranchRecord → BranchRecord) :
    RecordMap.tally (RecordMap.update m k f) =
      RecordMap.tally m +
        ((f ((RecordMap.find m k).getD { correctPredictions := 0, mispredictions := 0 })).total -
          ((RecordMap.find m k).getD { correctPredictions := 0, mispredictions := 0 }).total) := by
  induction m with
  | nil => simp [RecordMap.update, RecordMap.find, RecordMap.tally, BranchRecord.total]
  | cons kv t ih =>
    obtain ⟨k', r⟩ := kv
    by_cases hk : k' = k
    · simp [RecordMap.update, RecordMap.find, RecordMap.tally, hk]
      omega
    · simp only [RecordMap.tally, List.map_cons, List.sum_cons] at ih ⊢
      simp only [RecordMap.update, RecordMap.find, hk, if_false, List.map_cons, List.sum_cons, ih]
      omega

theorem RecordMap.bounded_update (m : RecordMap) (k : HistoryType)
    (f : BranchRecord → BranchRecord) (B B' : Int) (hm : RecordMap.Bounded m B)
    (hB : 0 ≤ B) (hBB : B ≤ B')
    (hf : ∀ r : BranchRecord,
      (0 ≤ r.correctPredictions ∧ r.correctPredictions ≤ B ∧
        0 ≤ r.mispredictions ∧ r.mispredictions ≤ B) →
      (0 ≤ (f r).correctPredictions ∧ (f r).correctPredictions ≤ B' ∧
        0 ≤ (f r).mispredictions ∧ (f r).mispredictions ≤ B')) :
    RecordMap.Bounded (RecordMap.update m k f) B' := by
  induction m with
  | nil =>
    intro kv hkv
    simp only [RecordMap.update, List.mem_singleton] at hkv
    subst hkv
    exact hf _ ⟨le_refl _, hB, le_refl _, hB⟩
  | cons kv t ih =>
    obtain ⟨k', r⟩ := kv
    have hr := hm (k', r) (List.mem_cons_self _ _)
    have ht : RecordMap.Bounded t B := fun x hx => hm x (List.mem_cons_of_mem _ hx)
    intro x hx
    by_cases hk : k' = k
    · simp only [RecordMap.update, hk, if_true, List.mem_cons] at hx
      rcases hx with rfl | hx
      · exact hf r hr
      · have := ht x hx
        omega
    · simp only [RecordMap.update, hk, if_false, List.mem_cons] at hx
      rcases hx with rfl | hx
      · simp only at hr ⊢
        omega
      · exact ih ht x hx

theorem RecordMap.bounded_getD (m : RecordMap) (k : HistoryType) (B : Int)
    (hm : RecordMap.Bounded m B) (hB : 0 ≤ B) :
    0 ≤ ((RecordMap.find m k).getD
        { correctPredictions := 0, mispredictions := 0 }).correctPredictions ∧
    ((RecordMap.find m k).getD
        { correctPredictions := 0, mispredictions := 0 }).correctPredictions ≤ B ∧
    0 ≤ ((RecordMap.find m k).getD
        { correctPredictions := 0, mispredictions := 0 }).mispredictions ∧
    ((RecordMap.find m k).getD
        { correctPredictions := 0, mispredictions := 0 }).mispredictions ≤ B := by
  cases hf : RecordMap.find m k with
  | none => simp [hB]
  | some r => exact hm (k, r) (RecordMap.mem_of_find m k r hf)

/-- While no counter can overflow, `recordPredictionResult` adds exactly one to
the tally of the map and keeps every counter within the next bound. -/
theorem recordPredictionResult_tally {ρ σ : Type} (bp : BPredictor ρ σ)
    (instruction : Instruction) (prediction : PredType) (B : Int)
    (hm : RecordMap.Bounded bp.predictionRecords B) (hB : 0 ≤ B) (hlt : B + 1 < 2147483648) :
    RecordMap.Bounded (bp.recordPredictionResult instruction prediction).predictionRecords
        (B + 1) ∧
    RecordMap.tally (bp.recordPredictionResult instruction prediction).predictionRecords =
      RecordMap.tally bp.predictionRecords + 1 := by
  have hw : ∀ x : Int, 0 ≤ x → x ≤ B → wrapInt32 (x + 1) = x + 1 := fun x h0 h1 =>
    wrapInt32_of_inRange _ (by unfold InInt32; omega)
  -- the map after the explicit creation of an absent record
  have stage1 : ∃ m₁ : RecordMap, RecordMap.Bounded m₁ B ∧
      RecordMap.tally m₁ = RecordMap.tally bp.predictionRecords ∧
      (if RecordMap.find bp.predictionRecords (bp.pred.calcInstID instruction) = none then
        RecordMap.update bp.predictionRecords (bp.pred.calcInstID instruction)
          (fun _ => { correctPredictions := 0, mispredictions := 0 })
      else bp.predictionRecords) = m₁ := by
    refine ⟨_, ?_, ?_, rfl⟩
    · split_ifs with hnone
      · exact RecordMap.bounded_update _ _ _ B B hm hB (le_refl _)
          (fun _ _ => ⟨le_refl _, hB, le_refl _, hB⟩)
      · exact hm
    · split_ifs with hnone
      · rw [RecordMap.tally_update, hnone]
        simp
      · rfl
  obtain ⟨m₁, hb₁, ht₁, hm₁⟩ := stage1
  have hr₀ := RecordMap.bounded_getD m₁ (bp.pred.calcInstID instruction) B hb₁ hB
  unfold BPredictor.recordPredictionResult
  simp only [hm₁]
  by_cases hp : prediction = PredType.CorrectPrediction
  · simp only [hp, if_true]
    constructor
    · refine RecordMap.bounded_update _ _ _ B (B + 1) hb₁ hB (by omega) ?_
      intro r hr
      simp only [hw r.correctPredictions hr.1 hr.2.1]
      omega
    · rw [RecordMap.tally_update, ht₁]
      simp only [BranchRecord.total, hw _ hr₀.1 hr₀.2.1]
      omega
  · simp only [hp, if_false]
    constructor
    · refine RecordMap.bounded_update _ _ _ B (B + 1) hb₁ hB (by omega) ?_
      intro r hr
      simp only [hw r.mispredictions hr.2.2.1 hr.2.2.2]
      omega
    · rw [RecordMap.tally_update, ht₁]
      simp only [BranchRecord.total, hw _ hr₀.2.2.1 hr₀.2.2.2]
      omega

theorem predict_tally_step {ρ σ : Type} (bp : BPredictor ρ σ) (inst : Instruction)
    (oracleID : InstID) (doUpdate : Bool) (B : Int)
    (hm : RecordMap.Bounded bp.predictionRecords B) (hB : 0 ≤ B)
    (hbr : inst.isBranch = true)
    (hlt : (bp.ras.doPredict inst oracleID doUpdate).1 = PredType.NoPrediction →
      B + 1 < 2147483648) :
    RecordMap.Bounded (bp.predict inst oracleID doUpdate).2.predictionRecords
      (B + (if (bp.ras.doPredict inst oracleID doUpdate).1 = PredType.NoPrediction
        then 1 else 0)) ∧
    RecordMap.tally (bp.predict inst oracleID doUpdate).2.predictionRecords =
      RecordMap.tally bp.predictionRecords +
        (if (bp.ras.doPredict inst oracleID doUpdate).1 = PredType.NoPrediction
          then 1 else 0) := by
  by_cases hr : (bp.ras.doPredict inst oracleID doUpdate).1 = PredType.NoPrediction
  · rw [predict_records_of_decline bp inst oracleID doUpdate hr hbr]
    simp only [hr, if_true]
    exact recordPredictionResult_tally bp inst _ B hm hB (hlt hr)
  · rw [(predict_pred_of_ras bp inst oracleID doUpdate hr).2]
    simp only [hr, if_false, Int.add_zero, and_true]
    exact hm

/-- Along a run whose RAS-declined calls cannot overflow a counter, the tally of
the map grows by the number of calls on which the RAS declined. -/
theorem run_tally {ρ σ : Type} (calls : List Call) :
    ∀ (bp : BPredictor ρ σ) (B : Int), RecordMap.Bounded bp.predictionRecords B → 0 ≤ B →
      B + (nRasDeclined (bp.run calls).1 : Int) < 2147483648 →
      (∀ c ∈ calls, c.inst.isBranch = true) →
      RecordMap.tally (bp.run calls).2.predictionRecords =
        RecordMap.tally bp.predictionRecords + (nRasDeclined (bp.run calls).1 : Int) := by
  induction calls with
  | nil => intro bp B _ _ _ _; simp [BPredictor.run, nRasDeclined]
  | cons c cs ih =>
    intro bp B hm hB hlen hbr
    simp only [BPredictor.run, nRasDeclined_cons] at hlen ⊢
    by_cases hr : (bp.ras.doPredict c.inst c.oracleID c.doUpdate).1 = PredType.NoPrediction
    · simp only [hr, if_true] at hlen ⊢
      push_cast at hlen ⊢
      have hstep := predict_tally_step bp c.inst c.oracleID c.doUpdate B hm hB
        (hbr c (List.mem_cons_self _ _)) (fun _ => by omega)
      simp only [hr, if_true] at hstep
      have hrest := ih (bp.predict c.inst c.oracleID c.doUpdate).2 (B + 1) hstep.1 (by omega)
        (by omega) (fun x hx => hbr x (List.mem_cons_of_mem _ hx))
      rw [hrest, hstep.2]
      omega
    · simp only [hr, if_false] at hlen ⊢
      push_cast at hlen ⊢
      have hstep := predict_tally_step bp c.inst c.oracleID c.doUpdate B hm hB
        (hbr c (List.mem_cons_self _ _)) (fun h => absurd h hr)
      simp only [hr, if_false, Int.add_zero] at hstep
      have hrest := ih (bp.predict c.inst c.oracleID c.doUpdate).2 B hstep.1 hB
        (by omega) (fun x hx => hbr x (List.mem_cons_of_mem _ hx))
      rw [hrest, hstep.2]
      omega

/-- C9 refuted as stated: the record under key 256 holds `{5, 2147483647}`, the
RAS declines and the direction predictor answers `MissPrediction`; the `int`
increment overflows and the record becomes `{5, -2147483648}`, so its
`mispredictions` did not grow by one. -/
theorem predict_tally_overflows :
    (saturatedPredictor.ras.doPredict (branchAt 256 260) 128 true).1 =
      PredType.NoPrediction ∧
    (saturatedPredictor.predict (branchAt 256 260) 128 true).1 = PredType.MissPrediction ∧
    saturatedPredictor.pred.calcInstID (branchAt 256 260) = 256 ∧
    RecordMap.find saturatedPredictor.predictionRecords 256 =
      some { correctPredictions := 5, mispredictions := 2147483647 } ∧
    RecordMap.find
        (saturatedPredictor.predict (branchAt 256 260) 128 true).2.predictionRecords 256 =
      some { correctPredictions := 5, mispredictions := -2147483648 } ∧
    RecordMap.find
        (saturatedPredictor.predict (branchAt 256 260) 128 true).2.predictionRecords 256 ≠
      some (BranchRecord.tallied { correctPredictions := 5, mispredictions := 2147483647 }
        PredType.MissPrediction) := by
  decide

/-- C9 as amended: on a call for a branch on which the RAS declines, whatever
`doUpdate` is, the record found under every key other than `calcInstID(inst)` is
unchanged and the record found under `calcInstID(inst)` changes; provided the
counter being incremented is below `INT_MAX`, so that the incremented value
still fits in an `int`, that record becomes the old one (`{0, 0}` if there was
none) with one more correct prediction when the returned verdict is
`CorrectPrediction` and one more misprediction otherwise.  Hence, from an
empty map and as long as the RAS has declined on fewer than `2^31` calls, the
total of `correctPredictions + mispredictions` over all records is the number
of calls on which the RAS declined. -/
theorem predict_diagnostic_tally {ρ σ : Type} (bp : BPredictor ρ σ) (inst : Instruction)
    (oracleID : InstID) (doUpdate : Bool) (calls : List Call) :
    (inst.isBranch = true →
      (bp.ras.doPredict inst oracleID doUpdate).1 = PredType.NoPrediction →
      (∀ k : HistoryType, k ≠ bp.pred.calcInstID inst →
        RecordMap.find (bp.predict inst oracleID doUpdate).2.predictionRecords k =
          RecordMap.find bp.predictionRecords k) ∧
      RecordMap.find (bp.predict inst oracleID doUpdate).2.predictionRecords
          (bp.pred.calcInstID inst) ≠
        RecordMap.find bp.predictionRecords (bp.pred.calcInstID inst) ∧
      (InInt32
          (if (bp.predict inst oracleID doUpdate).1 = PredType.CorrectPrediction then
            ((RecordMap.find bp.predictionRecords (bp.pred.calcInstID inst)).getD
              { correctPredictions := 0, mispredictions := 0 }).correctPredictions + 1
          else
            ((RecordMap.find bp.predictionRecords (bp.pred.calcInstID inst)).getD
              { correctPredictions := 0, mispredictions := 0 }).mispredictions + 1) →
        RecordMap.find (bp.predict inst oracleID doUpdate).2.predictionRecords
            (bp.pred.calcInstID inst) =
          some (((RecordMap.find bp.predictionRecords (bp.pred.calcInstID inst)).getD
            { correctPredictions := 0, mispredictions := 0 }).tallied
              (bp.predict inst oracleID doUpdate).1))) ∧
    (bp.predictionRecords = [] → (∀ c ∈ calls, c.inst.isBranch = true) →
      nRasDeclined (bp.run calls).1 < 2147483648 →
      RecordMap.tally (bp.run calls).2.predictionRecords =
        (nRasDeclined (bp.run calls).1 : Int)) := by
  constructor
  · intro hbr hr
    rw [predict_records_of_decline bp inst oracleID doUpdate hr hbr]
    refine ⟨fun k hk => recordPredictionResult_find_other bp inst _ k hk, ?_, ?_⟩
    · rw [recordPredictionResult_find_self]
      intro hEq
      cases hf : RecordMap.find bp.predictionRecords (bp.pred.calcInstID inst) with
      | none => rw [hf] at hEq; exact Option.noConfusion hEq
      | some r =>
        rw [hf] at hEq
        simp only [Option.getD_some, Option.some.injEq] at hEq
        by_cases hp : (bp.predict inst oracleID doUpdate).1 = PredType.CorrectPrediction
        · simp only [hp, if_true] at hEq
          exact wrapInt32_succ_ne _ (congrArg BranchRecord.correctPredictions hEq)
        · simp only [hp, if_false] at hEq
          exact wrapInt32_succ_ne _ (congrArg BranchRecord.mispredictions hEq)
    · intro hfit
      rw [recordPredictionResult_find_self]
      unfold BranchRecord.tallied
      by_cases hp : (bp.predict inst oracleID doUpdate).1 = PredType.CorrectPrediction
      · simp only [hp, if_true] at hfit ⊢
        rw [wrapInt32_of_inRange _ hfit]
      · simp only [hp, if_false] at hfit ⊢
        rw [wrapInt32_of_inRange _ hfit]
  · intro hempty hbr hlen
    have hb : RecordMap.Bounded bp.predictionRecords 0 := by
      rw [hempty]
      intro kv hkv
      simp at hkv
    have h := run_tally calls bp 0 hb (le_refl _) (by omega) hbr
    rw [h, hempty]
    simp [RecordMap.tally]

/-- C9 as amended, evaluated on the scripted run: the first call tallies a
correct prediction under key 256 and leaves every other key alone, and after
the four calls the map holds `256 ↦ {1, 1}` and `768 ↦ {0, 1}`, a total of 3 for
the 3 calls on which the RAS declined. -/
theorem predict_diagnostic_tally_witness :
    RecordMap.find
        (scriptedPredictor.predict (branchAt 256 260) 128 true).2.predictionRecords
        (scriptedPredictor.pred.calcInstID (branchAt 256 260)) =
      some (((RecordMap.find scriptedPredictor.predictionRecords
          (scriptedPredictor.pred.calcInstID (branchAt 256 260))).getD
        { correctPredictions := 0, mispredictions := 0 }).tallied
          (scriptedPredictor.predict (branchAt 256 260) 128 true).1) ∧
    (∀ k : HistoryType, k ≠ scriptedPredictor.pred.calcInstID (branchAt 256 260) →
      RecordMap.find
          (scriptedPredictor.predict (branchAt 256 260) 128 true).2.predictionRecords k =
        RecordMap.find scriptedPredictor.predictionRecords k) ∧
    RecordMap.tally (scriptedPredictor.run scriptedCalls).2.predictionRecords =
      (nRasDeclined (scriptedPredictor.run scriptedCalls).1 : Int) ∧
    (scriptedPredictor.predict (branchAt 256 260) 128 true).2.predictionRecords =
      [(256, { correctPredictions := 1, mispredictions := 0 })] ∧
    (scriptedPredictor.run scriptedCalls).2.predictionRecords =
      [(256, { correctPredictions := 1, mispredictions := 1 }),
       (768, { correctPredictions := 0, mispredictions := 1 })] ∧
    nRasDeclined (scriptedPredictor.run scriptedCalls).1 = 3 :=
  ⟨((predict_diagnostic_tally scriptedPredictor (branchAt 256 260) 128 true scriptedCalls).1
      (by decide) (by decide)).2.2 (by decide),
    ((predict_diagnostic_tally scriptedPredictor (branchAt 256 260) 128 true scriptedCalls).1
      (by decide) (by decide)).1,
    (predict_diagnostic_tally scriptedPredictor (branchAt 256 260) 128 true scriptedCalls).2
      (by decide) (by decide) (by decide),
    by decide, by decide, by decide⟩

end Sesc
